import Mathlib

/-!
Verification of the DMA transfer core of the ReadoutCard driver.

This file embeds, as executable Lean definitions, the C-RORC DMA channel
superpage state machine (`CrorcDmaChannel.cxx`) and the pattern checker and
error recording of the DMA benchmark (`ProgramDmaBench.cxx`), and proves the
stated properties about them.

Machine integers are modelled as `Nat` holding the raw 32-bit word where the
bit pattern matters (so the C status word `-1` is `0xFFFFFFFF`). Code that
throws is modelled by returning the mutated-so-far state together with an
`Option` error, matching the C++ exception semantics where mutations made
before the throw persist.
-/

namespace ReadoutCard

/-- Modelled from the spec: `MAX_SUPERPAGE_DESCRIPTORS` (the length of the
card-visible free-FIFO ring, equal to the ready-FIFO entry count) is a bounded
small integer, e.g. 128; the header defining it is not part of the source
fragment. -/
def MAX_SUPERPAGE_DESCRIPTORS : Nat := 128

/-- Modelled from the spec: the transfer queue is bounded by
`TRANSFER_QUEUE_CAPACITY`; the spec's full-ring scenario (push until
`freeFifoSize == MAX_SUPERPAGE_DESCRIPTORS`, the next push fails with
`QueueFull`) fixes it equal to `MAX_SUPERPAGE_DESCRIPTORS`. -/
def TRANSFER_QUEUE_CAPACITY : Nat := 128

/-- Modelled from the spec: the ready queue bound, equal to the other bounds. -/
def READY_QUEUE_CAPACITY : Nat := 128

/-- The C-RORC DMA page size in bytes (`DMA_PAGE_SIZE`, 8 KiB). -/
def DMA_PAGE_SIZE : Nat := 8192

/-- Modelled from the spec: the `Ddl::DTSW` data-transmission status word
sentinel; a whole-arrived status has this value in its low byte. The source
comment's example status `0x400082` exhibits the low byte `0x82`. -/
def DTSW : Nat := 0x82

/-- One entry of the host-resident ready FIFO, card-written. Both fields are
raw 32-bit words (`int32_t` in the source); the sentinel `-1` is `0xFFFFFFFF`.
Modelled from the spec: the `ReadyFifo` view itself is not in the source
fragment, only its use. -/
structure ReadyFifoEntry where
  length : Nat
  status : Nat
deriving Repr, DecidableEq

/-- Source `ReadyFifo::Entry::reset()`: both fields are set to the sentinel `-1`. -/
def resetEntry : ReadyFifoEntry :=
  { length := 0xFFFFFFFF, status := 0xFFFFFFFF }

/-- A superpage handed to the driver by the client. -/
structure Superpage where
  offset : Nat
  size : Nat
  received : Nat := 0
  ready : Bool := false
deriving Repr, DecidableEq, Inhabited

/-- The driver-visible state of one C-RORC DMA channel: the free-FIFO ring
counters, the host copy of the ready FIFO, the two superpage queues and the
deferred-start flag. `dmaStarted` records whether the data generator or
trigger has been started by `startPendingDma`. `bufferSize` is the size of the
client DMA buffer, fixed at construction. -/
@[ext]
structure ChannelState where
  bufferSize : Nat
  freeFifoFront : Nat
  freeFifoBack : Nat
  freeFifoSize : Nat
  readyFifo : List ReadyFifoEntry
  transferQueue : List Superpage
  readyQueue : List Superpage
  pendingDmaStart : Bool
  dmaStarted : Bool
deriving Repr, DecidableEq

inductive DataArrivalStatus
  | noneArrived
  | partArrived
  | wholeArrived
deriving Repr, DecidableEq

/-- The exceptions thrown by `CrorcDmaChannel::dataArrived`, with the
annotations it attaches (raw status, length, FIFO index). -/
inductive ArrivalError
  | errorBitSet (status length index : Nat)
  | unrecognizedStatus (status length index : Nat)
deriving Repr, DecidableEq

/-- Source `CrorcDmaChannel::dataArrived(index)`: interpret a ready-FIFO entry.
`status == -1` is none arrived, `status == 0` partial; a status whose low
byte is `DTSW` is whole arrived unless bit 31 (the error bit) is set, in
which case it throws; any other status throws. -/
def dataArrived (entry : ReadyFifoEntry) (index : Nat) :
    Except ArrivalError DataArrivalStatus :=
  if entry.status = 0xFFFFFFFF then
    .ok .noneArrived
  else if entry.status = 0 then
    .ok .partArrived
  else if entry.status % 256 = DTSW then
    if 2 ^ 31 ≤ entry.status then
      .error (.errorBitSet entry.status entry.length index)
    else
      .ok .wholeArrived
  else
    .error (.unrecognizedStatus entry.status entry.length index)

inductive PushError
  | invalidSuperpage
  | transferQueueFull
  | firmwareQueueFull
deriving Repr, DecidableEq

inductive QueueError
  | queueEmpty
deriving Repr, DecidableEq

/-- Modelled from the spec: `checkSuperpage` (defined in the channel base
class, not in the source fragment) rejects an invalid superpage; a superpage
is valid when its size is a positive multiple of the DMA page size and it lies
within the client buffer. -/
def superpageValid (bufferSize : Nat) (sp : Superpage) : Bool :=
  decide (0 < sp.size) && decide (sp.size % DMA_PAGE_SIZE = 0) &&
    decide (sp.offset + sp.size ≤ bufferSize)

/-- Source `CrorcDmaChannel::pushSuperpage`: validate, check both capacity bounds
(transfer queue first, then the firmware free FIFO), then push the descriptor,
advance `freeFifoFront` modulo the ring size, grow `freeFifoSize` and append
to the transfer queue. A `some` error models a throw; the first component is
the caller-visible state afterwards (unchanged, since the code mutates only
after all checks). -/
def pushSuperpage (s : ChannelState) (superpage : Superpage) :
    ChannelState × Option PushError :=
  if superpageValid s.bufferSize superpage = false then
    (s, some .invalidSuperpage)
  else if TRANSFER_QUEUE_CAPACITY ≤ s.transferQueue.length then
    (s, some .transferQueueFull)
  else if MAX_SUPERPAGE_DESCRIPTORS ≤ s.freeFifoSize then
    (s, some .firmwareQueueFull)
  else
    ({ s with
        freeFifoSize := s.freeFifoSize + 1,
        freeFifoFront := (s.freeFifoFront + 1) % MAX_SUPERPAGE_DESCRIPTORS,
        transferQueue := s.transferQueue ++ [superpage] }, none)

/-- Source `CrorcDmaChannel::getSuperpage`: front of the ready queue, not popped;
throws `queueEmpty` when empty. -/
def getSuperpage (s : ChannelState) : Option Superpage × Option QueueError :=
  match s.readyQueue with
  | [] => (none, some .queueEmpty)
  | sp :: _ => (some sp, none)

/-- Source `CrorcDmaChannel::popSuperpage`: return and remove the front of the ready
queue; throws `queueEmpty` when empty. -/
def popSuperpage (s : ChannelState) :
    ChannelState × Option Superpage × Option QueueError :=
  match s.readyQueue with
  | [] => (s, none, some .queueEmpty)
  | sp :: rest => ({ s with readyQueue := rest }, some sp, none)

def getTransferQueueAvailable (s : ChannelState) : Nat :=
  TRANSFER_QUEUE_CAPACITY - s.transferQueue.length

def getReadyQueueSize (s : ChannelState) : Nat :=
  s.readyQueue.length

/-- State effect of `CrorcDmaChannel::deviceStartDma` (the hardware arming
calls do not touch the modelled driver state): clear the ring counters and
both queues and set `pendingDmaStart`, deferring the actual DMA start. -/
def deviceStartDma (s : ChannelState) : ChannelState :=
  { s with
    freeFifoFront := 0,
    freeFifoBack := 0,
    freeFifoSize := 0,
    readyQueue := [],
    transferQueue := [],
    pendingDmaStart := true,
    dmaStarted := false }

/-- Source `CrorcDmaChannel::startPendingDma`: a no-op unless a start is pending and
the transfer queue is non-empty; otherwise starts the data generator or
trigger (recorded in `dmaStarted`) and clears `pendingDmaStart`. -/
def startPendingDma (s : ChannelState) : ChannelState :=
  if s.pendingDmaStart = false then s
  else if s.transferQueue.isEmpty then s
  else { s with pendingDmaStart := false, dmaStarted := true }

/-- The completion-scan loop of `CrorcDmaChannel::fillSuperpages`, with fuel
equal to the loop bound (`freeFifoSize` decreases by one per iteration). While
`freeFifoSize > 0`, interpret the descriptor at `freeFifoBack`: if whole
arrived, record `length * 4` bytes into the head transfer-queue superpage,
reset the descriptor, advance `freeFifoBack` modulo the ring size, shrink
`freeFifoSize`, move the superpage (marked ready) to the ready queue and
continue; if partially arrived or none arrived, stop; a throw from
`dataArrived` aborts the scan keeping the mutations made so far. -/
def fillScan : Nat → ChannelState → ChannelState × Option ArrivalError
  | 0, s => (s, none)
  | fuel + 1, s =>
    if s.freeFifoSize = 0 then (s, none)
    else
      let entry := s.readyFifo.getD s.freeFifoBack resetEntry
      match dataArrived entry s.freeFifoBack with
      | .error e => (s, some e)
      | .ok .wholeArrived =>
        let superpageFilled := entry.length * 4
        let sp := s.transferQueue.headD default
        fillScan fuel
          { s with
            readyFifo := s.readyFifo.set s.freeFifoBack resetEntry,
            freeFifoSize := s.freeFifoSize - 1,
            freeFifoBack := (s.freeFifoBack + 1) % MAX_SUPERPAGE_DESCRIPTORS,
            transferQueue := s.transferQueue.tail,
            readyQueue :=
              s.readyQueue ++ [{ sp with received := superpageFilled, ready := true }] }
      | .ok .partArrived => (s, none)
      | .ok .noneArrived => (s, none)

/-- Source `CrorcDmaChannel::fillSuperpages`: when a DMA start is pending, return at
once if the transfer queue is empty, else perform the pending start; then, if
something is in flight, run the completion scan. -/
def fillSuperpages (s : ChannelState) : ChannelState × Option ArrivalError :=
  if s.pendingDmaStart then
    if s.transferQueue.isEmpty then (s, none)
    else
      if (startPendingDma s).transferQueue.isEmpty then (startPendingDma s, none)
      else fillScan (startPendingDma s).freeFifoSize (startPendingDma s)
  else
    if s.transferQueue.isEmpty then (s, none)
    else fillScan s.freeFifoSize s

/-- The channel state right after construction and `deviceStartDma`: cleared
counters and queues, a fully reset ready FIFO, and a pending DMA start. -/
def initialState (bufferSize : Nat) : ChannelState :=
  { bufferSize := bufferSize,
    freeFifoFront := 0,
    freeFifoBack := 0,
    freeFifoSize := 0,
    readyFifo := List.replicate MAX_SUPERPAGE_DESCRIPTORS resetEntry,
    transferQueue := [],
    readyQueue := [],
    pendingDmaStart := true,
    dmaStarted := false }

/-- One step of the channel: any of the driver operations, or a card
completion write into the ready FIFO. The card write is modelled from the
spec: the card writes back `(length, status)` into the host-resident array. -/
inductive Step : ChannelState → ChannelState → Prop
  | startDma (s : ChannelState) : Step s (deviceStartDma s)
  | push (s : ChannelState) (sp : Superpage) : Step s (pushSuperpage s sp).1
  | fill (s : ChannelState) : Step s (fillSuperpages s).1
  | pop (s : ChannelState) : Step s (popSuperpage s).1
  | cardWrite (s : ChannelState) (i : Nat) (e : ReadyFifoEntry) :
      i < MAX_SUPERPAGE_DESCRIPTORS → e.length < 2 ^ 32 → e.status < 2 ^ 32 →
      Step s { s with readyFifo := s.readyFifo.set i e }

/-- States reachable from a freshly started channel by any sequence of
operations and card completions. -/
inductive Reachable (bufferSize : Nat) : ChannelState → Prop
  | init : Reachable bufferSize (initialState bufferSize)
  | step {s s' : ChannelState} : Reachable bufferSize s → Step s s' →
      Reachable bufferSize s'

/-! ### The benchmark pattern checker and error recording (`ProgramDmaBench.cxx`) -/

/-- Source `MAX_RECORDED_ERRORS`: bound involved in recording errors to the stream. -/
def MAX_RECORDED_ERRORS : Nat := 1000

inductive GeneratorPattern
  | incremental
  | alternating
  | constant
  | random
deriving Repr, DecidableEq

inductive CardType
  | crorc
  | cru
deriving Repr, DecidableEq

/-- One recorded discrepancy: the fields of the
`event:%d i:%d cnt:%d exp:0x%x val:0x%x` line. -/
structure ErrorRecord where
  event : Int
  index : Nat
  cnt : Nat
  exp : Nat
  val : Nat
deriving Repr, DecidableEq

/-- The benchmark's error bookkeeping: `mErrorCount` (an `int64`, always
incremented) and `mErrorStream` (the records that will be written to
`readout_errors.txt`). -/
structure BenchState where
  errorCount : Nat
  errorStream : List ErrorRecord
deriving Repr, DecidableEq

def BenchState.startState : BenchState :=
  { errorCount := 0, errorStream := [] }

/-- Source `ProgramDmaBench::addError`: increment `mErrorCount`, then append the
record to the stream only if in verbose mode and the incremented count is
still below `MAX_RECORDED_ERRORS`. The same statements appear inline in
`checkErrorsCru`. -/
def addError (verbose : Bool) (st : BenchState) (eventNumber : Int)
    (index : Nat) (generatorCounter expectedValue actualValue : Nat) :
    BenchState :=
  let count := st.errorCount + 1
  if verbose && decide (count < MAX_RECORDED_ERRORS) then
    { errorCount := count,
      errorStream := st.errorStream ++
        [{ event := eventNumber, index := index, cnt := generatorCounter,
           exp := expectedValue, val := actualValue }] }
  else
    { st with errorCount := count }

/-- The `check` lambda of `ProgramDmaBench::checkErrorsCru`: walk the page at
a stride of `PATTERN_STRIDE = 8` 32-bit words (so `(pageSize32 + 7) / 8`
iterations starting at word 0); at the first word differing from
`patternFunction`, record the error and return `true`. -/
def cruCheck (verbose : Bool) (page : Nat → Nat) (pageSize32 : Nat)
    (eventNumber : Int) (counter : Nat) (patternFunction : Nat → Nat)
    (st : BenchState) : Bool × BenchState :=
  match (List.range' 0 ((pageSize32 + 7) / 8) 8).find?
      (fun i => page i != patternFunction i) with
  | some i =>
    (true, addError verbose st eventNumber i counter (patternFunction i) (page i))
  | none => (false, st)

/-- The `check` lambda of `ProgramDmaBench::checkErrorsCrorc`: word 0 is
compared against the event counter (a mismatch is recorded but does not make
the check return `true`); words from 8 up to `pageSize32` (the SDH words 1..7
are skipped) are compared against `patternFunction`, and the first mismatch is
recorded and makes the check return `true`. -/
def crorcCheck (verbose : Bool) (page : Nat → Nat) (pageSize32 : Nat)
    (eventNumber : Int) (counter : Nat) (patternFunction : Nat → Nat)
    (st : BenchState) : Bool × BenchState :=
  let st1 :=
    if page 0 ≠ counter then
      addError verbose st eventNumber 0 counter counter (page 0)
    else st
  match (List.range' 8 (pageSize32 - 8)).find?
      (fun i => page i != patternFunction i) with
  | some i =>
    (true, addError verbose st1 eventNumber i counter (patternFunction i) (page i))
  | none => (false, st1)

/-- Source `ProgramDmaBench::checkErrorsCru`: dispatch on the generator pattern; the
`RANDOM` pattern falls through to a throw. The incremental expected value
`counter * 256 + i / 8` is computed in `uint32_t`, so it wraps modulo `2^32`. -/
def checkErrorsCru (verbose : Bool) (page : Nat → Nat) (pageSize32 : Nat)
    (eventNumber : Int) (counter : Nat) (pattern : GeneratorPattern)
    (st : BenchState) : Except Unit (Bool × BenchState) :=
  match pattern with
  | .incremental =>
    .ok (cruCheck verbose page pageSize32 eventNumber counter
      (fun i => (counter * 256 + i / 8) % 2 ^ 32) st)
  | .alternating =>
    .ok (cruCheck verbose page pageSize32 eventNumber counter
      (fun _ => 0xa5a5a5a5) st)
  | .constant =>
    .ok (cruCheck verbose page pageSize32 eventNumber counter
      (fun _ => 0x12345678) st)
  | .random => .error ()

/-- Source `ProgramDmaBench::checkErrorsCrorc`: dispatch on the generator pattern
(`i - 1` for incremental); the `RANDOM` pattern falls through to a throw. -/
def checkErrorsCrorc (verbose : Bool) (page : Nat → Nat) (pageSize32 : Nat)
    (eventNumber : Int) (counter : Nat) (pattern : GeneratorPattern)
    (st : BenchState) : Except Unit (Bool × BenchState) :=
  match pattern with
  | .incremental =>
    .ok (crorcCheck verbose page pageSize32 eventNumber counter
      (fun i => i - 1) st)
  | .alternating =>
    .ok (crorcCheck verbose page pageSize32 eventNumber counter
      (fun _ => 0xa5a5a5a5) st)
  | .constant =>
    .ok (crorcCheck verbose page pageSize32 eventNumber counter
      (fun _ => 0x12345678) st)
  | .random => .error ()

/-- Source `ProgramDmaBench::checkErrors`: per-card dispatch. -/
def checkErrors (cardType : CardType) (verbose : Bool) (page : Nat → Nat)
    (pageSize32 : Nat) (eventNumber : Int) (counter : Nat)
    (pattern : GeneratorPattern) (st : BenchState) :
    Except Unit (Bool × BenchState) :=
  match cardType with
  | .crorc => checkErrorsCrorc verbose page pageSize32 eventNumber counter pattern st
  | .cru => checkErrorsCru verbose page pageSize32 eventNumber counter pattern st

/-- Source `ProgramDmaBench::getEventNumber`: the first 32-bit word of the page. -/
def getEventNumber (page : Nat → Nat) : Nat :=
  page 0

/-- The error-checking portion of `ProgramDmaBench::readoutPage`: seed the
data-generator counter from the page when it is still `-1` (C-RORC: the event
number; CRU: the event number divided by 256), run `checkErrors` with the
counter truncated to 32 bits, re-seed the counter from the current page on a
detected error unless `noResyncCounter`, and finally increment it. -/
def readoutPageCheck (cardType : CardType) (verbose noResyncCounter : Bool)
    (page : Nat → Nat) (pageSize32 : Nat) (readoutCount : Int)
    (dataGeneratorCounter : Int) (pattern : GeneratorPattern)
    (st : BenchState) : Except Unit (Int × BenchState) :=
  let counterFromPage : Int :=
    match cardType with
    | .crorc => (getEventNumber page : Int)
    | .cru => ((getEventNumber page / 256 : Nat) : Int)
  let dgc := if dataGeneratorCounter = -1 then counterFromPage
             else dataGeneratorCounter
  match checkErrors cardType verbose page pageSize32 readoutCount
      (dgc % 2 ^ 32).toNat pattern st with
  | .error e => .error e
  | .ok (hasError, st1) =>
    let dgc2 := if hasError && !noResyncCounter then counterFromPage else dgc
    .ok (dgc2 + 1, st1)

/-- Lowercase hexadecimal rendering, as `boost::format`'s `%x`. -/
def hexString (n : Nat) : String :=
  String.mk (Nat.toDigits 16 n)

/-- One line of the error stream, as produced by the `boost::format`
string of `addError`. -/
def renderErrorLine (r : ErrorRecord) : String :=
  "event:" ++ toString r.event ++ " i:" ++ toString r.index ++
    " cnt:" ++ toString r.cnt ++ " exp:0x" ++ hexString r.exp ++
    " val:0x" ++ hexString r.val ++ "\n"

/-- Source `ProgramDmaBench::outputErrors`: the content written to
`readout_errors.txt` is exactly the accumulated error stream. -/
def outputErrors (st : BenchState) : String :=
  String.join (st.errorStream.map renderErrorLine)

/-! ### Helper lemmas -/

/-- A concrete valid superpage used in concrete scenarios. -/
def spA : Superpage :=
  { offset := 0, size := 8192 }

theorem fillScan_preserves_flags (fuel : Nat) :
    ∀ s : ChannelState,
      (fillScan fuel s).1.pendingDmaStart = s.pendingDmaStart ∧
      (fillScan fuel s).1.dmaStarted = s.dmaStarted ∧
      (fillScan fuel s).1.bufferSize = s.bufferSize := by
  induction fuel with
  | zero => intro s; simp [fillScan]
  | succ n ih =>
    intro s
    simp only [fillScan]
    split
    · simp
    · split
      · simp
      · exact ih _
      · simp
      · simp

theorem fillSuperpages_eq_fillScan (s : ChannelState)
    (hpend : s.pendingDmaStart = false) (htq : s.transferQueue ≠ []) :
    fillSuperpages s = fillScan s.freeFifoSize s := by
  simp [fillSuperpages, hpend, List.isEmpty_iff, htq]

theorem fillScan_stop (fuel : Nat) (s : ChannelState)
    (h : dataArrived (s.readyFifo.getD s.freeFifoBack resetEntry) s.freeFifoBack
          = .ok .partArrived ∨
         dataArrived (s.readyFifo.getD s.freeFifoBack resetEntry) s.freeFifoBack
          = .ok .noneArrived) :
    fillScan fuel s = (s, none) := by
  cases fuel with
  | zero => simp [fillScan]
  | succ n =>
    simp only [fillScan]
    split
    · rfl
    · rcases h with h | h <;> rw [h]

theorem fillScan_succ_whole (n : Nat) (s : ChannelState)
    (h : dataArrived (s.readyFifo.getD s.freeFifoBack resetEntry) s.freeFifoBack
          = .ok .wholeArrived)
    (hsz : 0 < s.freeFifoSize) :
    fillScan (n + 1) s = fillScan n
      { s with
        readyFifo := s.readyFifo.set s.freeFifoBack resetEntry,
        freeFifoSize := s.freeFifoSize - 1,
        freeFifoBack := (s.freeFifoBack + 1) % MAX_SUPERPAGE_DESCRIPTORS,
        transferQueue := s.transferQueue.tail,
        readyQueue := s.readyQueue ++
          [{ s.transferQueue.headD default with
             received := (s.readyFifo.getD s.freeFifoBack resetEntry).length * 4,
             ready := true }] } := by
  simp only [fillScan]
  split
  · omega
  · rw [h]

/-! ### C1: the completion scan of `fillSuperpages` -/

/-- C1: with a non-empty free FIFO (and the head in-flight superpage `sp`),
the scan of `fillSuperpages` examines the descriptor at `freeFifoBack`; on
`WholeArrived` it delivers `sp` to the ready queue with `received` set to the
descriptor length in 32-bit words times 4 and `ready` set, resets the
descriptor, advances `freeFifoBack` modulo `MAX_SUPERPAGE_DESCRIPTORS`,
decrements `freeFifoSize`, pops the transfer queue and continues the scan;
on `PartArrived` or `NoneArrived` it stops at once, leaving the state
unchanged and examining no later slot. -/
theorem fillSuperpages_scan_step (s : ChannelState) (sp : Superpage)
    (rest : List Superpage) (hsz : 0 < s.freeFifoSize)
    (htq : s.transferQueue = sp :: rest)
    (hpend : s.pendingDmaStart = false) :
    (dataArrived (s.readyFifo.getD s.freeFifoBack resetEntry) s.freeFifoBack
        = .ok .wholeArrived →
      fillSuperpages s = fillScan (s.freeFifoSize - 1)
        { s with
          readyFifo := s.readyFifo.set s.freeFifoBack resetEntry,
          freeFifoSize := s.freeFifoSize - 1,
          freeFifoBack := (s.freeFifoBack + 1) % MAX_SUPERPAGE_DESCRIPTORS,
          transferQueue := rest,
          readyQueue := s.readyQueue ++
            [{ sp with
               received := (s.readyFifo.getD s.freeFifoBack resetEntry).length * 4,
               ready := true }] })
    ∧ ((dataArrived (s.readyFifo.getD s.freeFifoBack resetEntry) s.freeFifoBack
          = .ok .partArrived ∨
        dataArrived (s.readyFifo.getD s.freeFifoBack resetEntry) s.freeFifoBack
          = .ok .noneArrived) →
      fillSuperpages s = (s, none)) := by
  have htq' : s.transferQueue ≠ [] := by rw [htq]; simp
  constructor
  · intro h
    rw [fillSuperpages_eq_fillScan s hpend htq']
    obtain ⟨n, hn⟩ : ∃ n, s.freeFifoSize = n + 1 :=
      ⟨s.freeFifoSize - 1, by omega⟩
    rw [hn]
    have := fillScan_succ_whole n s h hsz
    rw [this]
    simp [htq, hn]
  · intro h
    rw [fillSuperpages_eq_fillScan s hpend htq']
    exact fillScan_stop _ s h

/-- Concrete state for exercising the scan: one superpage in flight, the
back descriptor whole-arrived with length 2048 words. -/
def scanDemoState : ChannelState :=
  { bufferSize := 2 ^ 20,
    freeFifoFront := 1,
    freeFifoBack := 0,
    freeFifoSize := 1,
    readyFifo := [{ length := 2048, status := 0x82 }],
    transferQueue := [spA],
    readyQueue := [],
    pendingDmaStart := false,
    dmaStarted := true }

theorem fillSuperpages_scan_step_witness :
    0 < scanDemoState.freeFifoSize ∧
    scanDemoState.transferQueue = spA :: [] ∧
    scanDemoState.pendingDmaStart = false ∧
    ((dataArrived (scanDemoState.readyFifo.getD scanDemoState.freeFifoBack resetEntry)
        scanDemoState.freeFifoBack = .ok .wholeArrived →
      fillSuperpages scanDemoState = fillScan (scanDemoState.freeFifoSize - 1)
        { scanDemoState with
          readyFifo := scanDemoState.readyFifo.set scanDemoState.freeFifoBack resetEntry,
          freeFifoSize := scanDemoState.freeFifoSize - 1,
          freeFifoBack := (scanDemoState.freeFifoBack + 1) % MAX_SUPERPAGE_DESCRIPTORS,
          transferQueue := [],
          readyQueue := scanDemoState.readyQueue ++
            [{ spA with
               received := (scanDemoState.readyFifo.getD scanDemoState.freeFifoBack
                 resetEntry).length * 4,
               ready := true }] })
    ∧ ((dataArrived (scanDemoState.readyFifo.getD scanDemoState.freeFifoBack resetEntry)
          scanDemoState.freeFifoBack = .ok .partArrived ∨
        dataArrived (scanDemoState.readyFifo.getD scanDemoState.freeFifoBack resetEntry)
          scanDemoState.freeFifoBack = .ok .noneArrived) →
      fillSuperpages scanDemoState = (scanDemoState, none))) :=
  ⟨by decide, by decide, by decide,
    fillSuperpages_scan_step scanDemoState spA [] (by decide) (by decide) (by decide)⟩

/-! ### C4: pushing into a full transfer queue -/

/-- C4: when the transfer queue holds `TRANSFER_QUEUE_CAPACITY` superpages,
pushing any valid superpage throws the transfer-queue-full (`QueueFull`)
error, and the returned state is the unchanged input state. -/
theorem pushSuperpage_full_queue (s : ChannelState) (sp : Superpage)
    (hv : superpageValid s.bufferSize sp = true)
    (hfull : s.transferQueue.length = TRANSFER_QUEUE_CAPACITY) :
    pushSuperpage s sp = (s, some .transferQueueFull) := by
  simp [pushSuperpage, hv, hfull]

/-- A state whose transfer queue is at capacity. -/
def fullQueueState : ChannelState :=
  { initialState (2 ^ 20) with
    transferQueue := List.replicate TRANSFER_QUEUE_CAPACITY spA,
    freeFifoSize := TRANSFER_QUEUE_CAPACITY }

theorem pushSuperpage_full_queue_witness :
    superpageValid fullQueueState.bufferSize spA = true ∧
    fullQueueState.transferQueue.length = TRANSFER_QUEUE_CAPACITY ∧
    pushSuperpage fullQueueState spA = (fullQueueState, some .transferQueueFull) :=
  ⟨by decide, by simp [fullQueueState, TRANSFER_QUEUE_CAPACITY],
    pushSuperpage_full_queue fullQueueState spA (by decide)
      (by simp [fullQueueState, TRANSFER_QUEUE_CAPACITY])⟩

/-! ### C6: the deferred DMA start -/

/-- C6: while a DMA start is pending, `fillSuperpages` with an empty transfer
queue returns with the state untouched (the channel stays in PENDING_START);
once the transfer queue is non-empty, `fillSuperpages` performs the pending
start: the generator or trigger is started (`dmaStarted`) and
`pendingDmaStart` is cleared (the channel is RUNNING). -/
theorem fillSuperpages_pending_start (s : ChannelState)
    (hpend : s.pendingDmaStart = true) :
    (s.transferQueue = [] → fillSuperpages s = (s, none)) ∧
    (s.transferQueue ≠ [] →
      (fillSuperpages s).1.pendingDmaStart = false ∧
      (fillSuperpages s).1.dmaStarted = true) := by
  constructor
  · intro h
    simp [fillSuperpages, hpend, h]
  · intro h
    have hne : s.transferQueue.isEmpty = false := by
      simp [List.isEmpty_iff, h]
    have hstart : startPendingDma s =
        { s with pendingDmaStart := false, dmaStarted := true } := by
      simp [startPendingDma, hpend, hne]
    have hflags := fillScan_preserves_flags
      ({ s with pendingDmaStart := false, dmaStarted := true }).freeFifoSize
      { s with pendingDmaStart := false, dmaStarted := true }
    simp only [fillSuperpages, hpend, hstart, hne, if_true, ite_true,
      Bool.false_eq_true, if_false, ite_false]
    exact ⟨hflags.1, hflags.2.1⟩

/-- The freshly started channel after one push: start still pending, one
superpage in flight. -/
def pendingOneState : ChannelState :=
  (pushSuperpage (initialState (2 ^ 20)) spA).1

theorem fillSuperpages_pending_start_witness :
    pendingOneState.pendingDmaStart = true ∧
    ((pendingOneState.transferQueue = [] →
        fillSuperpages pendingOneState = (pendingOneState, none)) ∧
      (pendingOneState.transferQueue ≠ [] →
        (fillSuperpages pendingOneState).1.pendingDmaStart = false ∧
        (fillSuperpages pendingOneState).1.dmaStarted = true)) :=
  ⟨by decide, fillSuperpages_pending_start pendingOneState (by decide)⟩

/-! ### The free-FIFO / transfer-queue invariant (C3, C9) -/

/-- The inductive invariant of the channel state: the transfer queue mirrors
the on-card free FIFO one for one, the FIFO never exceeds the queue bound, and
`freeFifoFront` is `freeFifoBack` advanced by `freeFifoSize` modulo the ring
size. -/
def ChannelInv (s : ChannelState) : Prop :=
  s.transferQueue.length = s.freeFifoSize ∧
  s.freeFifoSize ≤ TRANSFER_QUEUE_CAPACITY ∧
  s.freeFifoBack < MAX_SUPERPAGE_DESCRIPTORS ∧
  s.freeFifoFront = (s.freeFifoBack + s.freeFifoSize) % MAX_SUPERPAGE_DESCRIPTORS

theorem deviceStartDma_inv (s : ChannelState) : ChannelInv (deviceStartDma s) := by
  refine ⟨rfl, ?_, ?_, rfl⟩ <;>
    simp [deviceStartDma, TRANSFER_QUEUE_CAPACITY, MAX_SUPERPAGE_DESCRIPTORS]

theorem pushSuperpage_inv (s : ChannelState) (sp : Superpage)
    (h : ChannelInv s) : ChannelInv (pushSuperpage s sp).1 := by
  unfold pushSuperpage
  split
  · exact h
  · split
    · exact h
    · split
      · exact h
      · obtain ⟨h1, h2, h3, h4⟩ := h
        rename_i hq hf
        refine ⟨?_, ?_, ?_, ?_⟩
        · simp [h1]
        · simp only [TRANSFER_QUEUE_CAPACITY] at *
          omega
        · exact h3
        · simp only [MAX_SUPERPAGE_DESCRIPTORS] at *
          omega

theorem popSuperpage_inv (s : ChannelState) (h : ChannelInv s) :
    ChannelInv (popSuperpage s).1 := by
  unfold popSuperpage
  split
  · exact h
  · exact h

theorem fillScan_inv (fuel : Nat) :
    ∀ s : ChannelState, ChannelInv s → ChannelInv (fillScan fuel s).1 := by
  induction fuel with
  | zero => intro s h; exact h
  | succ n ih =>
    intro s h
    simp only [fillScan]
    split
    · exact h
    · split
      · exact h
      · apply ih
        obtain ⟨h1, h2, h3, h4⟩ := h
        rename_i hsz _
        refine ⟨?_, ?_, ?_, ?_⟩
        · simp [List.length_tail, h1]
        · exact le_trans (Nat.sub_le _ _) h2
        · simp only [MAX_SUPERPAGE_DESCRIPTORS] at *
          omega
        · simp only [MAX_SUPERPAGE_DESCRIPTORS] at *
          omega
      · exact h
      · exact h

theorem startPendingDma_inv (s : ChannelState) (h : ChannelInv s) :
    ChannelInv (startPendingDma s) := by
  unfold startPendingDma
  split
  · exact h
  · split
    · exact h
    · exact h

theorem fillSuperpages_inv (s : ChannelState) (h : ChannelInv s) :
    ChannelInv (fillSuperpages s).1 := by
  unfold fillSuperpages
  split
  · split
    · exact h
    · split
      · exact startPendingDma_inv s h
      · exact fillScan_inv _ _ (startPendingDma_inv s h)
  · split
    · exact h
    · exact fillScan_inv _ _ h

theorem reachable_inv (b : Nat) (s : ChannelState) (h : Reachable b s) :
    ChannelInv s := by
  induction h with
  | init =>
    refine ⟨rfl, ?_, ?_, rfl⟩ <;>
      simp [initialState, TRANSFER_QUEUE_CAPACITY, MAX_SUPERPAGE_DESCRIPTORS]
  | step hr hs ih =>
    cases hs with
    | startDma => exact deviceStartDma_inv _
    | push sp => exact pushSuperpage_inv _ sp ih
    | fill => exact fillSuperpages_inv _ ih
    | pop => exact popSuperpage_inv _ ih
    | cardWrite i e hi hl hst => exact ih

/-! ### C9: the transfer queue mirrors the free FIFO -/

/-- C9: in every reachable state the transfer queue size equals
`freeFifoSize`; consequently (the queue check coming first, with
`TRANSFER_QUEUE_CAPACITY ≤ MAX_SUPERPAGE_DESCRIPTORS`) the firmware-queue-full
branch of `pushSuperpage` can never be taken. -/
theorem transferQueue_matches_freeFifo (b : Nat) (s : ChannelState)
    (sp : Superpage) (h : Reachable b s) :
    s.transferQueue.length = s.freeFifoSize ∧
    (pushSuperpage s sp).2 ≠ some .firmwareQueueFull := by
  have hinv := reachable_inv b s h
  refine ⟨hinv.1, ?_⟩
  unfold pushSuperpage
  split
  · simp
  · split
    · simp
    · split
      · rename_i hq hf
        exfalso
        have h1 := hinv.1
        simp only [TRANSFER_QUEUE_CAPACITY] at hq
        simp only [MAX_SUPERPAGE_DESCRIPTORS] at hf
        omega
      · simp

theorem transferQueue_matches_freeFifo_witness :
    (initialState (2 ^ 20)).transferQueue.length =
      (initialState (2 ^ 20)).freeFifoSize ∧
    (pushSuperpage (initialState (2 ^ 20)) spA).2 ≠ some .firmwareQueueFull :=
  transferQueue_matches_freeFifo (2 ^ 20) _ spA Reachable.init

/-! ### C3: the free-FIFO counter congruence -/

/-- C3 (amended): in every reachable state `freeFifoSize` is congruent to
`freeFifoFront − freeFifoBack` modulo `MAX_SUPERPAGE_DESCRIPTORS`, and
`freeFifoSize` never exceeds `MAX_SUPERPAGE_DESCRIPTORS`; exact equality with
the reduced residue fails precisely at the full ring, where `freeFifoSize`
is `MAX_SUPERPAGE_DESCRIPTORS` while the residue is `0`. -/
theorem freeFifo_mod_congruence (b : Nat) (s : ChannelState)
    (h : Reachable b s) :
    ((s.freeFifoFront : Int) - (s.freeFifoBack : Int)) %
        (MAX_SUPERPAGE_DESCRIPTORS : Int)
      = (s.freeFifoSize : Int) % (MAX_SUPERPAGE_DESCRIPTORS : Int) ∧
    s.freeFifoSize ≤ MAX_SUPERPAGE_DESCRIPTORS := by
  obtain ⟨h1, h2, h3, h4⟩ := reachable_inv b s h
  simp only [TRANSFER_QUEUE_CAPACITY] at h2
  simp only [MAX_SUPERPAGE_DESCRIPTORS] at *
  constructor
  · omega
  · omega

theorem freeFifo_mod_congruence_witness :
    (((initialState (2 ^ 20)).freeFifoFront : Int) -
        ((initialState (2 ^ 20)).freeFifoBack : Int)) %
        (MAX_SUPERPAGE_DESCRIPTORS : Int)
      = ((initialState (2 ^ 20)).freeFifoSize : Int) %
        (MAX_SUPERPAGE_DESCRIPTORS : Int) ∧
    (initialState (2 ^ 20)).freeFifoSize ≤ MAX_SUPERPAGE_DESCRIPTORS :=
  freeFifo_mod_congruence (2 ^ 20) _ Reachable.init

/-- A successful push appends to the queue, bumps the size and advances the
front pointer. -/
theorem pushSuperpage_success (s : ChannelState) (sp : Superpage)
    (hv : superpageValid s.bufferSize sp = true)
    (h1 : s.transferQueue.length < TRANSFER_QUEUE_CAPACITY)
    (h2 : s.freeFifoSize < MAX_SUPERPAGE_DESCRIPTORS) :
    pushSuperpage s sp =
      ({ s with
          freeFifoSize := s.freeFifoSize + 1,
          freeFifoFront := (s.freeFifoFront + 1) % MAX_SUPERPAGE_DESCRIPTORS,
          transferQueue := s.transferQueue ++ [sp] }, none) := by
  simp [pushSuperpage, hv, Nat.not_le.mpr h1, Nat.not_le.mpr h2]

/-- The state after `k` successful pushes of `spA` into a fresh channel. -/
def pushedState (k : Nat) : ChannelState :=
  { initialState (2 ^ 20) with
    freeFifoSize := k,
    freeFifoFront := k % MAX_SUPERPAGE_DESCRIPTORS,
    transferQueue := List.replicate k spA }

theorem pushedState_reachable (k : Nat) (hk : k ≤ 128) :
    Reachable (2 ^ 20) (pushedState k) := by
  induction k with
  | zero =>
    have h0 : pushedState 0 = initialState (2 ^ 20) := by
      ext <;> simp [pushedState, initialState]
    rw [h0]
    exact Reachable.init
  | succ n ih =>
    have hvalid : superpageValid (pushedState n).bufferSize spA = true := by
      show superpageValid (2 ^ 20) spA = true
      decide
    have hstep := pushSuperpage_success (pushedState n) spA hvalid
      (by simp [pushedState, TRANSFER_QUEUE_CAPACITY]; omega)
      (by simp [pushedState, initialState, MAX_SUPERPAGE_DESCRIPTORS]; omega)
    have heq : (pushSuperpage (pushedState n) spA).1 = pushedState (n + 1) := by
      rw [hstep]
      ext <;> simp [pushedState, initialState, MAX_SUPERPAGE_DESCRIPTORS,
        List.replicate_succ']
    have := Reachable.step (ih (by omega)) (Step.push (pushedState n) spA)
    rwa [heq] at this

/-- C3 (counterexample): the full ring is reachable (push 128 superpages into
a fresh channel); there `freeFifoSize = 128` while
`(freeFifoFront − freeFifoBack) mod MAX_SUPERPAGE_DESCRIPTORS = 0`, so the
claimed equality fails. -/
theorem freeFifo_mod_equality_fails_at_full_ring :
    Reachable (2 ^ 20) (pushedState 128) ∧
    ¬ (((pushedState 128).freeFifoSize : Int) =
        (((pushedState 128).freeFifoFront : Int) -
          ((pushedState 128).freeFifoBack : Int)) %
          (MAX_SUPERPAGE_DESCRIPTORS : Int)) :=
  ⟨pushedState_reachable 128 (by omega), by decide⟩

/-! ### C2: when `fillSuperpages` can fail -/

/-- A ready-FIFO status word that `dataArrived` accepts without throwing:
the none-arrived sentinel, the partial-arrival zero, or a whole-arrived
`DTSW` word without the error bit. -/
def wellFormedEntry (e : ReadyFifoEntry) : Prop :=
  e.status = 0xFFFFFFFF ∨ e.status = 0 ∨
    (e.status % 256 = DTSW ∧ e.status < 2 ^ 31)

instance (e : ReadyFifoEntry) : Decidable (wellFormedEntry e) := by
  unfold wellFormedEntry
  infer_instance

theorem dataArrived_ok_of_wellFormed (e : ReadyFifoEntry) (i : Nat)
    (h : wellFormedEntry e) : ∃ st, dataArrived e i = .ok st := by
  rcases h with h | h | ⟨h1, h2⟩
  · exact ⟨.noneArrived, by simp [dataArrived, h]⟩
  · exact ⟨.partArrived, by simp [dataArrived, h, DTSW]⟩
  · refine ⟨.wholeArrived, ?_⟩
    have hne1 : e.status ≠ 0xFFFFFFFF := by omega
    have hne2 : e.status ≠ 0 := by
      intro h0
      rw [h0] at h1
      simp [DTSW] at h1
    simp [dataArrived, hne1, hne2, h1, Nat.not_le.mpr h2]
    omega

theorem getD_mem_or_default (l : List ReadyFifoEntry) (i : Nat)
    (d : ReadyFifoEntry) : l.getD i d ∈ l ∨ l.getD i d = d := by
  by_cases hlt : i < l.length
  · left
    simp [List.getD_eq_getElem?_getD, List.getElem?_eq_getElem hlt]
  · right
    simp [List.getD_eq_getElem?_getD, List.getElem?_eq_none (le_of_not_lt hlt)]

theorem wellFormed_set_reset (l : List ReadyFifoEntry) (i : Nat)
    (h : ∀ e ∈ l, wellFormedEntry e) :
    ∀ e ∈ l.set i resetEntry, wellFormedEntry e := by
  intro e he
  rcases List.mem_or_eq_of_mem_set he with h1 | h1
  · exact h e h1
  · rw [h1]
    exact Or.inl rfl

theorem fillScan_no_error (fuel : Nat) :
    ∀ s : ChannelState, (∀ e ∈ s.readyFifo, wellFormedEntry e) →
      (fillScan fuel s).2 = none := by
  induction fuel with
  | zero => intro s h; rfl
  | succ n ih =>
    intro s h
    have hent : wellFormedEntry (s.readyFifo.getD s.freeFifoBack resetEntry) := by
      rcases getD_mem_or_default s.readyFifo s.freeFifoBack resetEntry with h1 | h1
      · exact h _ h1
      · rw [h1]
        exact Or.inl rfl
    obtain ⟨st, hst⟩ := dataArrived_ok_of_wellFormed _ s.freeFifoBack hent
    simp only [fillScan]
    split
    · rfl
    · rw [hst]
      cases st with
      | noneArrived => rfl
      | partArrived => rfl
      | wholeArrived => exact ih _ (wellFormed_set_reset _ _ h)

theorem startPendingDma_fields (s : ChannelState) :
    (startPendingDma s).readyFifo = s.readyFifo ∧
    (startPendingDma s).readyQueue = s.readyQueue ∧
    (startPendingDma s).transferQueue = s.transferQueue ∧
    (startPendingDma s).freeFifoSize = s.freeFifoSize := by
  unfold startPendingDma
  split
  · exact ⟨rfl, rfl, rfl, rfl⟩
  · split
    · exact ⟨rfl, rfl, rfl, rfl⟩
    · exact ⟨rfl, rfl, rfl, rfl⟩

/-- C2 (amended): `fillSuperpages` never fails as long as every ready-FIFO
status word is well formed and error-free; it fails (with the data-arrival
error) exactly when the scan meets a malformed status or one with the error
bit set. -/
theorem fillSuperpages_ok_of_wellFormed (s : ChannelState)
    (h : ∀ e ∈ s.readyFifo, wellFormedEntry e) :
    (fillSuperpages s).2 = none := by
  have h1 : ∀ e ∈ (startPendingDma s).readyFifo, wellFormedEntry e := by
    rw [(startPendingDma_fields s).1]
    exact h
  unfold fillSuperpages
  split
  · split
    · rfl
    · split
      · rfl
      · exact fillScan_no_error _ _ h1
  · split
    · rfl
    · exact fillScan_no_error _ _ h

theorem fillSuperpages_ok_of_wellFormed_witness :
    (∀ e ∈ scanDemoState.readyFifo, wellFormedEntry e) ∧
    (fillSuperpages scanDemoState).2 = none :=
  ⟨by decide, fillSuperpages_ok_of_wellFormed scanDemoState (by decide)⟩

/-- A reachable state whose back descriptor carries a whole-arrived status
with the error bit (bit 31) set: a fresh channel, one push, then the card
writes status `0x80000082`. -/
def errorRingState : ChannelState :=
  { (pushSuperpage (initialState (2 ^ 20)) spA).1 with
    readyFifo := (pushSuperpage (initialState (2 ^ 20)) spA).1.readyFifo.set 0
      { length := 2048, status := 0x80000082 } }

/-- C2 (counterexample): `fillSuperpages` is not total on reachable states:
on `errorRingState` it throws the data-arrival error (status `0x80000082`,
length `2048`, slot `0`), refuting "never fails". -/
theorem fillSuperpages_can_fail :
    Reachable (2 ^ 20) errorRingState ∧
    (fillSuperpages errorRingState).2 =
      some (.errorBitSet 0x80000082 2048 0) :=
  ⟨Reachable.step (Reachable.step Reachable.init (Step.push _ spA))
      (Step.cardWrite _ 0 { length := 2048, status := 0x80000082 }
        (by decide) (by decide) (by decide)),
    by decide⟩

/-! ### C5: superpages delivered to the ready queue -/

/-- A reachable state whose back descriptor is whole-arrived with a
card-reported length of zero words. -/
def zeroLengthState : ChannelState :=
  { (pushSuperpage (initialState (2 ^ 20)) spA).1 with
    readyFifo := (pushSuperpage (initialState (2 ^ 20)) spA).1.readyFifo.set 0
      { length := 0, status := 0x82 } }

/-- C5 (counterexample): from the reachable `zeroLengthState`,
`fillSuperpages` delivers a superpage whose `received` is `0`, refuting the
claim that every delivered superpage has a strictly positive byte count. -/
theorem readyQueue_received_zero_possible :
    Reachable (2 ^ 20) zeroLengthState ∧
    (fillSuperpages zeroLengthState).1.readyQueue =
      [{ offset := 0, size := 8192, received := 0, ready := true }] ∧
    ((fillSuperpages zeroLengthState).1.readyQueue.all
      fun sp => decide (0 < sp.received)) = false :=
  ⟨Reachable.step (Reachable.step Reachable.init (Step.push _ spA))
      (Step.cardWrite _ 0 { length := 0, status := 0x82 }
        (by decide) (by decide) (by decide)),
    by decide, by decide⟩

theorem fillScan_readyQueue_new (fuel : Nat) :
    ∀ (s : ChannelState) (sp : Superpage),
      sp ∈ (fillScan fuel s).1.readyQueue →
      sp ∈ s.readyQueue ∨ (sp.ready = true ∧ sp.received % 4 = 0) := by
  induction fuel with
  | zero => intro s sp h; exact Or.inl h
  | succ n ih =>
    intro s sp h
    simp only [fillScan] at h
    split at h
    · exact Or.inl h
    · split at h
      · exact Or.inl h
      · rcases ih _ _ h with h1 | h1
        · rcases List.mem_append.mp h1 with h2 | h2
          · exact Or.inl h2
          · right
            rcases List.mem_singleton.mp h2 with rfl
            exact ⟨rfl, Nat.mul_mod_left _ 4⟩
        · exact Or.inr h1
      · exact Or.inl h
      · exact Or.inl h

/-- C5 (amended): every superpage that `fillSuperpages` newly appends to the
ready queue has its `ready` flag set and a `received` byte count equal to
four times the card-reported word count, hence a multiple of 4; `received` is
positive and bounded by the superpage size only insofar as the card reports a
length with those properties. -/
theorem readyQueue_delivered_ready_multiple_of_four (s : ChannelState)
    (sp : Superpage) (h : sp ∈ (fillSuperpages s).1.readyQueue) :
    sp ∈ s.readyQueue ∨ (sp.ready = true ∧ sp.received % 4 = 0) := by
  unfold fillSuperpages at h
  split at h
  · split at h
    · exact Or.inl h
    · split at h
      · rw [(startPendingDma_fields s).2.1] at h
        exact Or.inl h
      · rcases fillScan_readyQueue_new _ _ _ h with h1 | h1
        · rw [(startPendingDma_fields s).2.1] at h1
          exact Or.inl h1
        · exact Or.inr h1
  · split at h
    · exact Or.inl h
    · exact fillScan_readyQueue_new _ _ _ h

theorem readyQueue_delivered_ready_multiple_of_four_witness :
    ({ offset := 0, size := 8192, received := 8192, ready := true } : Superpage) ∈
        (fillSuperpages scanDemoState).1.readyQueue ∧
    (({ offset := 0, size := 8192, received := 8192, ready := true } : Superpage) ∈
        scanDemoState.readyQueue ∨
      (({ offset := 0, size := 8192, received := 8192, ready := true } :
          Superpage).ready = true ∧
        ({ offset := 0, size := 8192, received := 8192, ready := true } :
          Superpage).received % 4 = 0)) :=
  ⟨by decide,
    readyQueue_delivered_ready_multiple_of_four scanDemoState _ (by decide)⟩

/-! ### C7, C10: the Incremental pattern checkers -/

theorem addError_errorCount (v : Bool) (st : BenchState) (e : Int) (i : Nat)
    (g x y : Nat) : (addError v st e i g x y).errorCount = st.errorCount + 1 := by
  simp only [addError]
  split <;> rfl

theorem addError_errorStream (v : Bool) (st : BenchState) (e : Int) (i : Nat)
    (g x y : Nat) :
    (addError v st e i g x y).errorStream =
      if v && decide (st.errorCount + 1 < MAX_RECORDED_ERRORS) then
        st.errorStream ++ [{ event := e, index := i, cnt := g, exp := x, val := y }]
      else st.errorStream := by
  simp only [addError]
  by_cases h : (v && decide (st.errorCount + 1 < MAX_RECORDED_ERRORS)) = true
  · rw [if_pos h, if_pos h]
  · rw [if_neg h, if_neg h]

theorem cruCheck_true_iff (v : Bool) (page : Nat → Nat) (n : Nat) (e : Int)
    (c : Nat) (q : Nat → Nat) (st : BenchState) :
    (cruCheck v page n e c q st).1 = true ↔
      ∃ i, i < n ∧ i % 8 = 0 ∧ page i ≠ q i := by
  unfold cruCheck
  cases hfind : (List.range' 0 ((n + 7) / 8) 8).find? (fun i => page i != q i) with
  | none =>
    simp only [hfind]
    constructor
    · intro h
      exact absurd h (by simp)
    · rintro ⟨i, hi, hmod, hne⟩
      exfalso
      have hmem : i ∈ List.range' 0 ((n + 7) / 8) 8 := by
        rw [List.mem_range']
        exact ⟨i / 8, by omega, by omega⟩
      have := List.find?_eq_none.mp hfind i hmem
      simp at this
      exact hne this
  | some i =>
    simp only [hfind]
    have hp : page i ≠ q i := by
      have := List.find?_some hfind
      simpa using this
    have hmem := List.mem_of_find?_eq_some hfind
    rw [List.mem_range'] at hmem
    obtain ⟨k, hk, rfl⟩ := hmem
    constructor
    · intro _
      exact ⟨0 + 8 * k, by omega, by omega, hp⟩
    · intro _
      trivial

theorem crorcCheck_true_iff (v : Bool) (page : Nat → Nat) (n : Nat) (e : Int)
    (c : Nat) (q : Nat → Nat) (st : BenchState) :
    (crorcCheck v page n e c q st).1 = true ↔
      ∃ i, 8 ≤ i ∧ i < n ∧ page i ≠ q i := by
  unfold crorcCheck
  cases hfind : (List.range' 8 (n - 8)).find? (fun i => page i != q i) with
  | none =>
    simp only [hfind]
    constructor
    · intro h
      exact absurd h (by simp)
    · rintro ⟨i, h8, hi, hne⟩
      exfalso
      have hmem : i ∈ List.range' 8 (n - 8) := by
        rw [List.mem_range']
        exact ⟨i - 8, by omega, by omega⟩
      have := List.find?_eq_none.mp hfind i hmem
      simp at this
      exact hne this
  | some i =>
    simp only [hfind]
    have hp : page i ≠ q i := by
      have := List.find?_some hfind
      simpa using this
    have hmem := List.mem_of_find?_eq_some hfind
    rw [List.mem_range'] at hmem
    obtain ⟨k, hk, rfl⟩ := hmem
    constructor
    · intro _
      exact ⟨8 + 1 * k, by omega, by omega, hp⟩
    · intro _
      trivial

theorem crorcCheck_errorCount (v : Bool) (page : Nat → Nat) (n : Nat) (e : Int)
    (c : Nat) (q : Nat → Nat) (st : BenchState) :
    (crorcCheck v page n e c q st).2.errorCount =
      st.errorCount + (if page 0 = c then 0 else 1) +
        (if (crorcCheck v page n e c q st).1 = true then 1 else 0) := by
  unfold crorcCheck
  cases hfind : (List.range' 8 (n - 8)).find? (fun i => page i != q i) with
  | none =>
    simp only [hfind]
    by_cases h0 : page 0 = c
    · simp [h0]
    · simp [h0, addError_errorCount]
  | some i =>
    simp only [hfind]
    by_cases h0 : page 0 = c
    · simp [h0, addError_errorCount]
    · simp [h0, addError_errorCount]

/-- C7 (amended): the Incremental-pattern verifiers. On CRU the page is
checked only at word indices that are multiples of the 8-word stride, each
against `counter * 256 + i / 8` computed in 32-bit arithmetic (wrapping
modulo `2^32`), and a mismatch at such a word is exactly what makes the check
report an error; the unwrapped value of the claim agrees only while
`counter < 2^24`. On C-RORC, word 0 is checked against the counter (adding
one recorded error on mismatch) and every word `i ≥ 8` against `i − 1`, the
first such mismatch making the check report an error. -/
theorem incremental_checker_characterization (v : Bool) (page : Nat → Nat)
    (n : Nat) (e : Int) (c : Nat) (st : BenchState) :
    ∃ rCru rCrorc : Bool × BenchState,
      checkErrorsCru v page n e c .incremental st = .ok rCru ∧
      checkErrorsCrorc v page n e c .incremental st = .ok rCrorc ∧
      (rCru.1 = true ↔
        ∃ i, i < n ∧ i % 8 = 0 ∧ page i ≠ (c * 256 + i / 8) % 2 ^ 32) ∧
      (rCrorc.1 = true ↔ ∃ i, 8 ≤ i ∧ i < n ∧ page i ≠ i - 1) ∧
      rCrorc.2.errorCount = st.errorCount + (if page 0 = c then 0 else 1) +
        (if rCrorc.1 = true then 1 else 0) :=
  ⟨cruCheck v page n e c (fun i => (c * 256 + i / 8) % 2 ^ 32) st,
    crorcCheck v page n e c (fun i => i - 1) st,
    rfl, rfl,
    cruCheck_true_iff v page n e c (fun i => (c * 256 + i / 8) % 2 ^ 32) st,
    crorcCheck_true_iff v page n e c (fun i => i - 1) st,
    crorcCheck_errorCount v page n e c (fun i => i - 1) st⟩

/-- A page holding `i / 8` at every checked word: at counter `2^24` this is
exactly what the CRU data emulator's wrapped expectation accepts. -/
def wrapDemoPage : Nat → Nat :=
  fun i => i / 8

/-- C7 (counterexample): at the event counter `2^24` (reachable, since the
`int64` counter is incremented per page and truncated to `uint32_t` at the
call), the source computes the expected value `counter * 256 + i / 8` in
`uint32_t`, so it wraps to `i / 8`: on `wrapDemoPage` the checker reports no
mismatch and records nothing, although word 0 differs from the claim's
unwrapped expected value `counter * 256 + 0 / 8 = 2^32`. -/
theorem cru_incremental_unbounded_expected_fails :
    checkErrorsCru true wrapDemoPage 64 0 (2 ^ 24) .incremental
        BenchState.startState = .ok (false, BenchState.startState) ∧
    wrapDemoPage 0 ≠ 2 ^ 24 * 256 + 0 / 8 :=
  ⟨rfl, by decide⟩

/-- C10: a C-RORC Incremental page whose only discrepancy is at word 0 (the
event-counter word) gets that discrepancy recorded, but the checker returns
`false` — the counter is therefore not re-seeded: `readoutPage` simply
increments it. The checker returns `true` only when some word `i ≥ 8`
mismatches. -/
theorem crorc_word0_mismatch_no_resync (page : Nat → Nat) (n : Nat) (v : Bool)
    (e : Int) (st : BenchState) (c : Nat) (hc : c < 2 ^ 32)
    (hw0 : page 0 ≠ c) (hrest : ∀ i < n, 8 ≤ i → page i = i - 1) :
    (crorcCheck v page n e c (fun i => i - 1) st).1 = false ∧
    (crorcCheck v page n e c (fun i => i - 1) st).2.errorCount =
      st.errorCount + 1 ∧
    (v = true → st.errorCount + 1 < MAX_RECORDED_ERRORS →
      (crorcCheck v page n e c (fun i => i - 1) st).2.errorStream =
        st.errorStream ++
          [{ event := e, index := 0, cnt := c, exp := c, val := page 0 }]) ∧
    ((crorcCheck v page n e c (fun i => i - 1) st).1 = true →
      ∃ i, 8 ≤ i ∧ i < n ∧ page i ≠ i - 1) ∧
    readoutPageCheck .crorc v false page n e (c : Int) .incremental st =
      .ok ((c : Int) + 1, (crorcCheck v page n e c (fun i => i - 1) st).2) := by
  have hfalse : (crorcCheck v page n e c (fun i => i - 1) st).1 = false := by
    rw [Bool.eq_false_iff]
    intro htrue
    obtain ⟨i, h8, hi, hne⟩ := (crorcCheck_true_iff v page n e c _ st).mp htrue
    exact hne (hrest i hi h8)
  have hst : (crorcCheck v page n e c (fun i => i - 1) st).2 =
      addError v st e 0 c c (page 0) := by
    unfold crorcCheck
    cases hfind : (List.range' 8 (n - 8)).find? (fun i => page i != i - 1) with
    | none => simp [hfind, hw0]
    | some i =>
      exfalso
      have hp := List.find?_some hfind
      have hmem := List.mem_of_find?_eq_some hfind
      rw [List.mem_range'] at hmem
      obtain ⟨k, hk, rfl⟩ := hmem
      simp only [bne_iff_ne, ne_eq] at hp
      exact hp (hrest (8 + 1 * k) (by omega) (by omega))
  refine ⟨hfalse, ?_, ?_, ?_, ?_⟩
  · rw [hst, addError_errorCount]
  · intro hv hbound
    rw [hst, addError_errorStream, hv]
    simp [hbound]
  · intro htrue
    exact (crorcCheck_true_iff v page n e c _ st).mp htrue
  · have hc32 : (((c : Nat) : Int) % 2 ^ 32).toNat = c := by omega
    have hcne : ¬ (((c : Nat) : Int) = -1) := by omega
    unfold readoutPageCheck checkErrors
    simp only [hcne, if_false, ite_false, hc32]
    have hdisp : checkErrorsCrorc v page n e c .incremental st =
        .ok (crorcCheck v page n e c (fun i => i - 1) st) := rfl
    rw [hdisp]
    simp [hfalse]

/-- A page whose only discrepancy is at word 0. -/
def word0BadPage : Nat → Nat :=
  fun i => if i = 0 then 5 else i - 1

theorem crorc_word0_mismatch_no_resync_witness :
    (7 : Nat) < 2 ^ 32 ∧ word0BadPage 0 ≠ 7 ∧
    (∀ i < 16, 8 ≤ i → word0BadPage i = i - 1) ∧
    ((crorcCheck true word0BadPage 16 0 7 (fun i => i - 1)
        BenchState.startState).1 = false ∧
      (crorcCheck true word0BadPage 16 0 7 (fun i => i - 1)
        BenchState.startState).2.errorCount = BenchState.startState.errorCount + 1 ∧
      (true = true → BenchState.startState.errorCount + 1 < MAX_RECORDED_ERRORS →
        (crorcCheck true word0BadPage 16 0 7 (fun i => i - 1)
          BenchState.startState).2.errorStream =
          BenchState.startState.errorStream ++
            [{ event := 0, index := 0, cnt := 7, exp := 7, val := word0BadPage 0 }]) ∧
      ((crorcCheck true word0BadPage 16 0 7 (fun i => i - 1)
          BenchState.startState).1 = true →
        ∃ i, 8 ≤ i ∧ i < 16 ∧ word0BadPage i ≠ i - 1) ∧
      readoutPageCheck .crorc true false word0BadPage 16 0 ((7 : Nat) : Int)
          .incremental BenchState.startState =
        .ok (((7 : Nat) : Int) + 1,
          (crorcCheck true word0BadPage 16 0 7 (fun i => i - 1)
            BenchState.startState).2)) :=
  ⟨by decide, by decide, by decide,
    crorc_word0_mismatch_no_resync word0BadPage 16 true 0 BenchState.startState 7
      (by decide) (by decide) (by decide)⟩

/-! ### C8: recording of discrepancies -/

/-- Simulation of `k` successive discrepancies fed through `addError`, as the benchmark
does for each detected mismatch, starting from a fresh error state. -/
def manyErrors (v : Bool) : Nat → BenchState
  | 0 => BenchState.startState
  | k + 1 => addError v (manyErrors v k) 0 0 0 0 1

theorem manyErrors_count (v : Bool) (k : Nat) :
    (manyErrors v k).errorCount = k := by
  induction k with
  | zero => rfl
  | succ n ih => simp [manyErrors, addError_errorCount, ih]

theorem manyErrors_length_true (k : Nat) :
    (manyErrors true k).errorStream.length = min k (MAX_RECORDED_ERRORS - 1) := by
  induction k with
  | zero => rfl
  | succ n ih =>
    have hc := manyErrors_count true n
    simp only [manyErrors, addError_errorStream, hc, Bool.true_and]
    by_cases h : n + 1 < MAX_RECORDED_ERRORS
    · rw [if_pos (by simpa using h)]
      simp [ih]
      simp only [MAX_RECORDED_ERRORS] at h ⊢
      omega
    · rw [if_neg (by simpa using h)]
      rw [ih]
      simp only [MAX_RECORDED_ERRORS] at h ⊢
      omega

theorem manyErrors_length_false (k : Nat) :
    (manyErrors false k).errorStream.length = 0 := by
  induction k with
  | zero => rfl
  | succ n ih => simp [manyErrors, addError_errorStream, ih]

/-- C8 (counterexample): after exactly 1000 discrepancies in a verbose run,
all 1000 are counted but only 999 lines are in the error stream — the
1000th discrepancy is not recorded, because the count is incremented before
the `< MAX_RECORDED_ERRORS` comparison. -/
theorem thousandth_error_not_recorded :
    (manyErrors true 1000).errorCount = 1000 ∧
    (manyErrors true 1000).errorStream.length = 999 ∧
    ¬ ((manyErrors true 1000).errorStream.length = 1000) := by
  have hl := manyErrors_length_true 1000
  refine ⟨manyErrors_count true 1000, ?_, ?_⟩
  · rw [hl]
    rfl
  · rw [hl]
    decide

/-- C8 (amended): all discrepancies are counted; in verbose mode exactly the
first `MAX_RECORDED_ERRORS − 1 = 999` of them are appended to the error
stream (the one whose incremented count reaches 1000 is already dropped), and
outside verbose mode none are; `readout_errors.txt` receives one rendered
`event/i/cnt/exp/val` line per recorded discrepancy. -/
theorem recorded_errors_characterization (v : Bool) (k : Nat) :
    (manyErrors v k).errorCount = k ∧
    (manyErrors true k).errorStream.length = min k (MAX_RECORDED_ERRORS - 1) ∧
    (manyErrors false k).errorStream.length = 0 ∧
    outputErrors (manyErrors v k) =
      String.join ((manyErrors v k).errorStream.map renderErrorLine) :=
  ⟨manyErrors_count v k, manyErrors_length_true k, manyErrors_length_false k, rfl⟩

end ReadoutCard
